import Mathlib

/-!
Verification of the hummingbird library scanner (`src/library/scan.rs`, with the
work-in-progress async variant in `src/library/scan2.rs`).

The scanner state machine, the incremental scan record, the discovery walk and the
artist/album/track upsert pipeline are embedded as executable Lean definitions,
translated from the threaded scanner in `scan.rs` (the complete implementation that
the application runs).  External effects are passed in explicitly:

* filesystem reads (`fs::metadata` modification times, `fs::read_dir` listings) and
  the media provider (`read_metadata_for_path`) are oracle parameters;
* the SQLite store is a record of row lists; the `queries/scan/*.sql` files are not
  part of the sources, so each query is modelled from the spec's store contract and
  carries a doc comment saying so;
* image decoding is an attribute of the art bytes (an `Option DecodedImg`), and the
  resize/re-encode operations of the `image` crate are symbolic constructors, so that
  the *decision logic* of `insert_album` — which is repository code — is exact.

Rust `Vec` push/pop stacks (`discovered`, `visited`, `to_process`) are modelled as
Lean lists with the pop end at the head.
-/

namespace Hummingbird

/-! ### Association lists (AHashMap / file-system models) -/

def assocGet {ν : Type} : List (String × ν) → String → Option ν
  | [], _ => none
  | (k, v) :: rest, key => if k = key then some v else assocGet rest key

def assocInsert {ν : Type} : List (String × ν) → String → ν → List (String × ν)
  | [], key, value => [(key, value)]
  | (k, v) :: rest, key, value =>
    if k = key then (key, value) :: rest else (k, v) :: assocInsert rest key value

/-- The scan record: absolute path → last-observed modification timestamp
(`AHashMap<PathBuf, u64>` in `ScanThread`). -/
abbrev ScanRecord := List (String × Nat)

/-! ### Paths and directory entries -/

/-- A filesystem path together with the projections the scanner takes of it
(`Path::extension`, `Path::parent`, `Path::file_name`). -/
structure FsPath where
  full : String
  ext : Option String
  parent : String
  fileName : Option String
deriving DecidableEq, Repr

/-- One entry of a directory listing, post-`canonicalize`; `mtime` is the result of
`fs::metadata(path).modified()` in unix seconds (`none` when the call fails). -/
structure DirEntry where
  path : FsPath
  isDir : Bool
  mtime : Option Nat
deriving DecidableEq, Repr

/-! ### Provider extension dispatch and the incremental check -/

/-- `file_is_scannable_with_provider` from `scan.rs`: the path's extension is one of
the provider's supported extensions. -/
def file_is_scannable_with_provider (path : FsPath) (exts : List String) : Bool :=
  exts.any fun extension =>
    match path.ext with
    | some e => e = extension
    | none => false

/-- The provider loop inside `ScanThread::file_is_scannable`: for the first provider
whose extension table matches, consult the scan record; an entry with exactly the
current timestamp means skip (record untouched), otherwise the record is updated and
the file is a candidate. -/
def file_is_scannable_loop (record : ScanRecord) (path : FsPath) (timestamp : Nat) :
    List (List String) → Bool × ScanRecord
  | [] => (false, record)
  | exts :: rest =>
    if file_is_scannable_with_provider path exts then
      match assocGet record path.full with
      | some last_scan =>
        if last_scan = timestamp then (false, record)
        else (true, assocInsert record path.full timestamp)
      | none => (true, assocInsert record path.full timestamp)
    else file_is_scannable_loop record path timestamp rest

/-- `ScanThread::file_is_scannable`: `mtime = none` models an `fs::metadata` error
(the file is not scannable and the record is untouched). -/
def file_is_scannable (provider_exts : List (List String)) (record : ScanRecord)
    (path : FsPath) (mtime : Option Nat) : Bool × ScanRecord :=
  match mtime with
  | none => (false, record)
  | some timestamp => file_is_scannable_loop record path timestamp provider_exts

/-! ### Metadata -/

/-- Modelled from the spec: `media/metadata.rs` is not among the sources.  Per the
spec's data model, every field is optional; the fields are the ones `scan.rs`
reads. -/
structure Metadata where
  name : Option String
  artist : Option String
  album_artist : Option String
  artist_sort : Option String
  album : Option String
  sort_album : Option String
  genre : Option String
  date : Option Nat
  label : Option String
  catalog : Option String
  isrc : Option String
  mbid_album : Option String
  track_current : Option Int
  disc_current : Option Int
deriving DecidableEq, Repr

/-- Metadata with every optional field absent. -/
def emptyMetadata : Metadata :=
  ⟨none, none, none, none, none, none, none, none, none, none, none, none, none, none⟩

/-- `Option::or`. -/
def optionOr {α : Type} (a b : Option α) : Option α :=
  match a with
  | some v => some v
  | none => b

/-! ### Image pipeline -/

/-- A decoded raster image: its dimensions, as reported by `dimensions()`, plus an
abstract content tag. -/
structure DecodedImg where
  width : Nat
  height : Nat
  content : Nat
deriving DecidableEq, Repr

/-- Raw embedded/folder art bytes; `decodesTo` is the outcome the `image` crate's
decoder produces on them (`none` = decode failure). -/
structure ArtBytes where
  bytes : List Nat
  decodesTo : Option DecodedImg
deriving DecidableEq, Repr

/-- `image::imageops::resize(&decoded, 1024, 1024, FilterType::Lanczos3)`. -/
def resize_lanczos_1024 (img : DecodedImg) : DecodedImg :=
  ⟨1024, 1024, img.content⟩

/-- The full-size art blob bound into `create_album`: either the undecoded original
bytes, or the resized image re-encoded with `JpegEncoder::new_with_quality(_, 70)`. -/
inductive FullArt
  | originalBytes (bytes : List Nat)
  | jpegQuality70 (img : DecodedImg)
deriving DecidableEq, Repr

/-- The thumbnail blob: `thumbnail(&decoded_rgba, 70, 70)` written as `Bmp`. -/
inductive ThumbArt
  | bmp70 (img : DecodedImg)
deriving DecidableEq, Repr

/-- The image block of `ScanThread::insert_album` (the `(resized_image, thumb)`
computation): decode the bytes (`?` propagates a decode failure), build the 70×70
bitmap thumbnail, and keep the original bytes as the full representation unless
both dimensions exceed 1024, in which case resize with Lanczos3 and re-encode as
JPEG quality 70. -/
def process_album_art (image : Option ArtBytes) :
    Except String (Option FullArt × Option ThumbArt) :=
  match image with
  | none => Except.ok (none, none)
  | some img =>
    match img.decodesTo with
    | none => Except.error ("image decode failed")
    | some decoded =>
      let thumb := ThumbArt.bmp70 decoded
      let resized :=
        if decoded.width ≤ 1024 ∨ decoded.height ≤ 1024 then
          FullArt.originalBytes img.bytes
        else
          FullArt.jpegQuality70 (resize_lanczos_1024 decoded)
      Except.ok (some resized, some thumb)

/-! ### The relational store and the scan queries

The `queries/scan/*.sql` files are `include_str!`-ed by `scan.rs` but are not among
the sources, so each query is modelled from the spec's store contract (§4.5, §6
"Store contract").  Row ids are allocated as the current length of the row list. -/

structure ArtistRow where
  id : Nat
  name : String
  sortName : String
deriving DecidableEq, Repr

structure AlbumRow where
  id : Nat
  title : String
  sortTitle : String
  artistId : Option Nat
  fullArt : Option FullArt
  thumb : Option ThumbArt
  date : Option Nat
  label : Option String
  catalog : Option String
  isrc : Option String
  mbid : String
deriving DecidableEq, Repr

structure TrackRow where
  id : Nat
  name : String
  albumId : Nat
  trackNum : Option Int
  discNum : Option Int
  duration : Nat
  path : String
  genre : Option String
  artistName : Option String
  folder : String
deriving DecidableEq, Repr

/-- The relational store; `albumPaths` holds the (album id, disc number, folder)
bindings of the `create_album_path` / `get_album_path` queries. -/
structure Store where
  artists : List ArtistRow
  albums : List AlbumRow
  tracks : List TrackRow
  albumPaths : List (Nat × Int × String)
deriving DecidableEq, Repr

def emptyStore : Store := ⟨[], [], [], []⟩

def findArtist : List ArtistRow → String → Option Nat
  | [], _ => none
  | row :: rest, name => if row.name = name then some row.id else findArtist rest name

/-- Modelled from the spec: `queries/scan/get_artist_id.sql` looks an artist row up
by its name (identity key = display name). -/
def get_artist_id (s : Store) (name : String) : Option Nat :=
  findArtist s.artists name

/-- Modelled from the spec: `queries/scan/create_artist.sql` is a try-insert that
returns the fresh id, yielding no row (`RowNotFound` at the call site) when an
artist with that name already exists. -/
def create_artist (s : Store) (name sortName : String) : Option (Store × Nat) :=
  match findArtist s.artists name with
  | some _ => none
  | none =>
    let id := s.artists.length
    some ({ s with artists := s.artists ++ [⟨id, name, sortName⟩] }, id)

def findAlbum : List AlbumRow → String → String → Option Nat
  | [], _, _ => none
  | row :: rest, title, mbid =>
    if row.title = title ∧ row.mbid = mbid then some row.id
    else findAlbum rest title mbid

/-- Modelled from the spec: `queries/scan/get_album_id.sql` looks an album up by the
two values `scan.rs` binds, the title and the MusicBrainz-id-or-sentinel. -/
def get_album_id (s : Store) (title mbid : String) : Option Nat :=
  findAlbum s.albums title mbid

/-- Modelled from the spec: `queries/scan/create_album.sql` inserts an album row with
the bound columns and returns the fresh id. -/
def create_album (s : Store) (title sortTitle : String) (artistId : Option Nat)
    (fullArt : Option FullArt) (thumb : Option ThumbArt) (date : Option Nat)
    (label catalog isrc : Option String) (mbid : String) : Store × Nat :=
  let id := s.albums.length
  ({ s with albums := s.albums ++
      [⟨id, title, sortTitle, artistId, fullArt, thumb, date, label, catalog, isrc, mbid⟩] },
   id)

def findAlbumPath : List (Nat × Int × String) → Nat → Int → Option String
  | [], _, _ => none
  | (aid, disc, folder) :: rest, albumId, discNum =>
    if aid = albumId ∧ disc = discNum then some folder
    else findAlbumPath rest albumId discNum

/-- Modelled from the spec: `queries/scan/get_album_path.sql` returns the
authoritative folder recorded for an (album id, disc number) pair, if any. -/
def get_album_path (s : Store) (albumId : Nat) (discNum : Int) : Option String :=
  findAlbumPath s.albumPaths albumId discNum

/-- Modelled from the spec: `queries/scan/create_album_path.sql` records a folder as
authoritative for an (album id, disc number) pair. -/
def create_album_path (s : Store) (albumId : Nat) (folder : String) (discNum : Int) :
    Store :=
  { s with albumPaths := s.albumPaths ++ [(albumId, discNum, folder)] }

def findTrackByPath : List TrackRow → String → Option Nat
  | [], _ => none
  | row :: rest, path => if row.path = path then some row.id else findTrackByPath rest path

/-- Modelled from the spec: `queries/scan/create_track.sql` inserts a track row and
returns the fresh id; a row already existing for the path is a conflict that yields
no row (`RowNotFound` at the call site, treated as benign). -/
def create_track (s : Store) (name : String) (albumId : Nat)
    (trackNum discNum : Option Int) (duration : Nat) (path : String)
    (genre artistName : Option String) (folder : String) : Option (Store × Nat) :=
  match findTrackByPath s.tracks path with
  | some _ => none
  | none =>
    let id := s.tracks.length
    some ({ s with tracks := s.tracks ++
        [⟨id, name, albumId, trackNum, discNum, duration, path, genre, artistName, folder⟩] },
     id)

/-! ### The upsert pipeline (`ScanThread::insert_artist` / `insert_album` /
`insert_track` / `update_metadata`) -/

/-- `ScanThread::insert_artist`: identity is album-artist if present else artist; if
neither, yield no id.  Try-insert first; on conflict (`RowNotFound`) fall back to
the id lookup. -/
def insert_artist (s : Store) (metadata : Metadata) :
    Except String (Store × Option Nat) :=
  match optionOr metadata.album_artist metadata.artist with
  | none => Except.ok (s, none)
  | some artist =>
    match create_artist s artist (metadata.artist_sort.getD artist) with
    | some (s2, id) => Except.ok (s2, some id)
    | none =>
      match get_artist_id s artist with
      | some id => Except.ok (s, some id)
      | none => Except.error ("artist lookup failed")

/-- `ScanThread::insert_album`: no album tag yields no id; otherwise look the album
up by (title, mbid-or-sentinel); on `RowNotFound` run the image block (whose decode
failure propagates) and create the row. -/
def insert_album (s : Store) (metadata : Metadata) (artistId : Option Nat)
    (image : Option ArtBytes) : Except String (Store × Option Nat) :=
  match metadata.album with
  | none => Except.ok (s, none)
  | some album =>
    let mbid := metadata.mbid_album.getD ("none")
    match get_album_id s album mbid with
    | some id => Except.ok (s, some id)
    | none =>
      match process_album_art image with
      | Except.error e => Except.error e
      | Except.ok (resized_image, thumb) =>
        let created := create_album s album (metadata.sort_album.getD album) artistId
          resized_image thumb metadata.date metadata.label metadata.catalog
          metadata.isrc mbid
        Except.ok (created.1, some created.2)

/-- The tail of `ScanThread::insert_track` after the folder binding: track name falls
back to the file name (failing the file when neither exists), and a `create_track`
conflict is benign. -/
def insert_track_row (s : Store) (metadata : Metadata) (albumId : Nat) (path : FsPath)
    (length : Nat) : Store × Except String Unit :=
  match optionOr metadata.name path.fileName with
  | none => (s, Except.error ("failed to retrieve filename"))
  | some name =>
    match create_track s name albumId metadata.track_current metadata.disc_current
        length path.full metadata.genre metadata.artist path.parent with
    | some (s2, _) => (s2, Except.ok ())
    | none => (s, Except.ok ())

/-- `ScanThread::insert_track`: nothing happens without an album id; the disc number
defaults to the sentinel −1; an existing binding for (album, disc) with a different
folder silently skips the file; a missing binding records the track's folder as
authoritative before the row is inserted.  The first component is the store as
left by the partially executed pipeline. -/
def insert_track (s : Store) (metadata : Metadata) (albumId : Option Nat)
    (path : FsPath) (length : Nat) : Store × Except String Unit :=
  match albumId with
  | none => (s, Except.ok ())
  | some albumId =>
    let disc_num : Int := metadata.disc_current.getD (-1)
    match get_album_path s albumId disc_num with
    | some folder =>
      if folder ≠ path.parent then (s, Except.ok ())
      else insert_track_row s metadata albumId path length
    | none =>
      let s2 := create_album_path s albumId path.parent disc_num
      insert_track_row s2 metadata albumId path length

/-- `ScanThread::update_metadata`: artist, then album, then track; an error aborts
the file with the store as already modified by the completed steps. -/
def update_metadata (s : Store) (metadata : Metadata) (length : Nat)
    (image : Option ArtBytes) (path : FsPath) : Store × Option String :=
  match insert_artist s metadata with
  | Except.error e => (s, some e)
  | Except.ok (s1, artistId) =>
    match insert_album s1 metadata artistId image with
    | Except.error e => (s1, some e)
    | Except.ok (s2, albumId) =>
      match insert_track s2 metadata albumId path length with
      | (s3, Except.ok _) => (s3, none)
      | (s3, Except.error e) => (s3, some e)

/-! ### The scanner state machine (`ScanThread`) -/

inductive ScanEvent
  | cleaning
  | discoverProgress (n : Nat)
  | scanProgress (current total : Nat)
  | scanCompleteWatching
  | scanCompleteIdle
deriving DecidableEq, Repr

inductive ScanCommand
  | scan
  | stop
deriving DecidableEq, Repr

inductive ScanState
  | idle
  | cleanup
  | discovering
  | scanning
deriving DecidableEq, Repr

/-- The mutable state of `ScanThread`.  `events` is the history of sends on
`event_tx`; `persisted_writes` is the history of `write_scan_record` invocations
(the snapshot each one serialized). -/
structure ScanThread where
  visited : List FsPath
  discovered : List FsPath
  to_process : List FsPath
  scan_state : ScanState
  scan_record : ScanRecord
  scanned : Nat
  discovered_total : Nat
  events : List ScanEvent
  store : Store
  persisted_writes : List ScanRecord
deriving DecidableEq, Repr

/-- The state `ScanThread::start` spawns the thread with. -/
def ScanThread.initial : ScanThread :=
  ⟨[], [], [], ScanState.idle, [], 0, 0, [], emptyStore, []⟩

/-- One command handled by the loop in `ScanThread::read_commands`: `Scan` while idle
seeds the discovery queue from the settings paths, resets the counters and enters
cleanup (`visited` is left alone); `Stop` returns to idle and clears `visited`,
`discovered` and `to_process`. -/
def read_command (settings_paths : List FsPath) (st : ScanThread)
    (command : ScanCommand) : ScanThread :=
  match command with
  | ScanCommand.scan =>
    if st.scan_state = ScanState.idle then
      { st with discovered := settings_paths
                scan_state := ScanState.cleanup
                scanned := 0
                discovered_total := 0
                events := st.events ++ [ScanEvent.cleaning] }
    else st
  | ScanCommand.stop =>
    { st with scan_state := ScanState.idle
              visited := []
              discovered := []
              to_process := [] }

/-- One directory entry handled by the loop in `ScanThread::discover`: directories
are pushed on the discovery stack; files go through `file_is_scannable`, and
candidates are pushed on `to_process` with batched (every 20) progress events. -/
def handle_dir_entry (provider_exts : List (List String)) (st : ScanThread)
    (entry : DirEntry) : ScanThread :=
  if entry.isDir then { st with discovered := entry.path :: st.discovered }
  else
    let checked := file_is_scannable provider_exts st.scan_record entry.path entry.mtime
    let st1 := { st with scan_record := checked.2 }
    if checked.1 then
      let total := st1.discovered_total + 1
      let events2 :=
        if total % 20 = 0 then st1.events ++ [ScanEvent.discoverProgress total]
        else st1.events
      { st1 with to_process := entry.path :: st1.to_process
                 discovered_total := total
                 events := events2 }
    else st1

/-- One call of `ScanThread::discover`.  `read_dir` is the filesystem listing
oracle, `none` modelling an `fs::read_dir` error; on that error the Rust code calls
`.unwrap()`, panicking the scanner thread, which the model renders as `none` (no
successor state).  An empty queue moves to scanning; an already-visited directory is
popped and skipped; otherwise the entries are processed and the directory is pushed
on `visited`. -/
def discover_step (read_dir : FsPath → Option (List DirEntry))
    (provider_exts : List (List String)) (st : ScanThread) : Option ScanThread :=
  match st.discovered with
  | [] => some { st with scan_state := ScanState.scanning }
  | path :: rest =>
    let st1 := { st with discovered := rest }
    if st.visited.contains path then some st1
    else
      match read_dir path with
      | none => none
      | some entries =>
        let st2 := entries.foldl (handle_dir_entry provider_exts) st1
        some { st2 with visited := path :: st2.visited }

/-- The result of `read_metadata_for_path`: tag metadata, duration in seconds, and
art bytes (embedded art, falling back to the folder-art heuristic). -/
structure FileInformation where
  metadata : Metadata
  duration : Nat
  image : Option ArtBytes
deriving Repr

/-- The per-pass environment: the provider pipeline of `read_metadata_for_path`,
`none` modelling any extraction failure. -/
structure ScanEnv where
  read_metadata : FsPath → Option FileInformation

/-- One call of `ScanThread::scan`: an empty work queue writes the scan record,
emits `ScanCompleteIdle` and returns to idle; otherwise one candidate is popped and
run through `update_metadata` (an extraction failure or pipeline error is logged and
the loop continues), with batched (every 5) progress events. -/
def scan_step (env : ScanEnv) (st : ScanThread) : ScanThread :=
  match st.to_process with
  | [] =>
    { st with persisted_writes := st.persisted_writes ++ [st.scan_record]
              scan_state := ScanState.idle
              events := st.events ++ [ScanEvent.scanCompleteIdle] }
  | path :: rest =>
    let st1 := { st with to_process := rest }
    match env.read_metadata path with
    | some info =>
      let updated := update_metadata st1.store info.metadata info.duration info.image path
      let scanned2 := st1.scanned + 1
      let events2 :=
        if scanned2 % 5 = 0 then
          st1.events ++ [ScanEvent.scanProgress scanned2 st1.discovered_total]
        else st1.events
      { st1 with store := updated.1
                 scanned := scanned2
                 events := events2 }
    | none => st1

/-- The scan-record loading prologue of `ScanThread::run`.  `file_exists` is
`scan_record.json.exists()`, `open_ok` the success of `File::open`, and `parsed` the
result of deserializing it (`none` = `serde_json` failure).  The result is the
in-memory record paired with whether the corrupt-record warning was logged; `none`
means the thread function returned (open failure). -/
def run_load_scan_record (file_exists open_ok : Bool) (parsed : Option ScanRecord) :
    Option (ScanRecord × Bool) :=
  if file_exists then
    if open_ok then
      match parsed with
      | some record => some (record, false)
      | none => some ([], true)
    else none
  else some ([], false)

/-! ### Persistence (`ScanThread::write_scan_record`) -/

/-- A filesystem write primitive: `File::create` truncates the file to empty;
`write_all` replaces its contents. -/
inductive FsOp
  | create (path : String)
  | writeAll (path : String) (data : String)
deriving DecidableEq, Repr

/-- Contents of the data directory, path → file contents. -/
abbrev FsState := List (String × String)

def applyOp (fs : FsState) : FsOp → FsState
  | FsOp.create p => assocInsert fs p ("")
  | FsOp.writeAll p data => assocInsert fs p data

def applyOps (fs : FsState) (ops : List FsOp) : FsState :=
  ops.foldl applyOp fs

/-- The write sequence of `ScanThread::write_scan_record`: `File::create` on the
record path itself, then `write_all` of the serialized record — no temporary file
and no rename. -/
def write_scan_record_ops (path data : String) : List FsOp :=
  [FsOp.create path, FsOp.writeAll path data]

/-! ### Concrete sample inputs used by the closed instances -/

def samplePath : FsPath :=
  ⟨("/music/a.mp3"), some ("mp3"), ("/music"), some ("a.mp3")⟩

def sampleDir : FsPath := ⟨("/music"), none, ("/"), none⟩

def sampleEntry : DirEntry := ⟨samplePath, false, some 5⟩

def sampleProviderTable : List (List String) := [[("mp3")]]

/-- Metadata carrying an album title but neither artist nor album-artist. -/
def mdAlbumNoArtist : Metadata :=
  { emptyMetadata with name := some ("Track T"), album := some ("Album X") }

/-- A scanner state that already recorded `samplePath` at timestamp 5. -/
def stRecorded : ScanThread :=
  { ScanThread.initial with scan_state := ScanState.discovering
                            scan_record := [(samplePath.full, 5)] }

/-- A scanner state that already visited `sampleDir` and has it queued again. -/
def stVisited : ScanThread :=
  { ScanThread.initial with scan_state := ScanState.discovering
                            discovered := [sampleDir]
                            visited := [sampleDir] }

/-- A store with a folder binding for (album 0, disc −1) pointing elsewhere. -/
def storeBound : Store :=
  { emptyStore with albumPaths := [(0, -1, ("/elsewhere"))] }

/-! ### Association list and scannability lemmas -/

theorem assocGet_insert_self {ν : Type} (l : List (String × ν)) (k : String) (v : ν) :
    assocGet (assocInsert l k v) k = some v := by
  induction l with
  | nil => simp [assocInsert, assocGet]
  | cons head tail ih =>
    obtain ⟨a, b⟩ := head
    by_cases hk : a = k
    · simp [assocInsert, hk, assocGet]
    · simp [assocInsert, hk, assocGet, ih]

theorem file_is_scannable_loop_unchanged (record : ScanRecord) (path : FsPath)
    (ts : Nat) (pts : List (List String))
    (hget : assocGet record path.full = some ts) :
    file_is_scannable_loop record path ts pts = (false, record) := by
  induction pts with
  | nil => rfl
  | cons head tail ih =>
    cases hh : file_is_scannable_with_provider path head with
    | true => simp [file_is_scannable_loop, hh, hget]
    | false => simp [file_is_scannable_loop, hh, ih]

theorem file_is_scannable_loop_changed (record : ScanRecord) (path : FsPath)
    (ts : Nat) (pts : List (List String))
    (hpts : ∃ exts ∈ pts, file_is_scannable_with_provider path exts = true)
    (hget : assocGet record path.full ≠ some ts) :
    file_is_scannable_loop record path ts pts
      = (true, assocInsert record path.full ts) := by
  induction pts with
  | nil => simp at hpts
  | cons head tail ih =>
    cases hh : file_is_scannable_with_provider path head with
    | true =>
      cases hg : assocGet record path.full with
      | none => simp [file_is_scannable_loop, hh, hg]
      | some last =>
        have hne : last ≠ ts := fun h => hget (by rw [hg, h])
        simp [file_is_scannable_loop, hh, hg, hne]
    | false =>
      obtain ⟨exts, hmem, hmatch⟩ := hpts
      have hmem2 : exts ∈ tail := by
        rcases List.mem_cons.mp hmem with h | h
        · exact absurd (h ▸ hmatch) (by simp [hh])
        · exact h
      simp only [file_is_scannable_loop, hh]
      exact ih ⟨exts, hmem2, hmatch⟩

/-- An entry recorded with exactly the current timestamp is never a candidate, and
checking it leaves the record alone, whatever the provider table. -/
theorem file_is_scannable_unchanged (pts : List (List String)) (record : ScanRecord)
    (path : FsPath) (ts : Nat)
    (hget : assocGet record path.full = some ts) :
    file_is_scannable pts record path (some ts) = (false, record) := by
  simpa [file_is_scannable] using file_is_scannable_loop_unchanged record path ts pts hget

/-! ### Store frame lemmas -/

theorem insert_track_row_frame (s : Store) (metadata : Metadata) (albumId : Nat)
    (path : FsPath) (length : Nat) :
    ((insert_track_row s metadata albumId path length).1).artists = s.artists ∧
    ((insert_track_row s metadata albumId path length).1).albums = s.albums ∧
    ((insert_track_row s metadata albumId path length).1).albumPaths = s.albumPaths := by
  unfold insert_track_row create_track
  cases optionOr metadata.name path.fileName with
  | none => exact ⟨rfl, rfl, rfl⟩
  | some name =>
    cases findTrackByPath s.tracks path.full with
    | none => exact ⟨rfl, rfl, rfl⟩
    | some tid => exact ⟨rfl, rfl, rfl⟩

theorem insert_track_frame (s : Store) (metadata : Metadata) (albumId : Option Nat)
    (path : FsPath) (length : Nat) :
    ((insert_track s metadata albumId path length).1).artists = s.artists ∧
    ((insert_track s metadata albumId path length).1).albums = s.albums := by
  cases albumId with
  | none => exact ⟨rfl, rfl⟩
  | some albumId =>
    cases hgp : get_album_path s albumId (metadata.disc_current.getD (-1)) with
    | none =>
      have h := insert_track_row_frame (create_album_path s albumId path.parent
        (metadata.disc_current.getD (-1))) metadata albumId path length
      simp only [insert_track, hgp]
      exact ⟨h.1, h.2.1⟩
    | some folder =>
      by_cases hf : folder ≠ path.parent
      · simp [insert_track, hgp, hf]
      · have h := insert_track_row_frame s metadata albumId path length
        simp only [insert_track, hgp, if_neg hf]
        exact ⟨h.1, h.2.1⟩

theorem insert_album_ok_frame (s : Store) (metadata : Metadata) (artistId : Option Nat)
    (image : Option ArtBytes) (s2 : Store) (x : Option Nat)
    (h : insert_album s metadata artistId image = Except.ok (s2, x)) :
    s2.artists = s.artists := by
  cases halb : metadata.album with
  | none =>
    simp only [insert_album, halb, Except.ok.injEq, Prod.mk.injEq] at h
    rw [← h.1]
  | some album =>
    cases hga : get_album_id s album (metadata.mbid_album.getD ("none")) with
    | some id =>
      simp only [insert_album, halb, hga, Except.ok.injEq, Prod.mk.injEq] at h
      rw [← h.1]
    | none =>
      cases hart : process_album_art image with
      | error e => simp [insert_album, halb, hga, hart] at h
      | ok pair =>
        obtain ⟨resized_image, thumb⟩ := pair
        simp only [insert_album, halb, hga, hart, Except.ok.injEq, Prod.mk.injEq] at h
        rw [← h.1]
        rfl

/-! ### C1 -/

/-- C1: during discovery, a scannable file whose scan-record entry equals its current
modification timestamp is skipped — not enqueued and the whole state (record
included) untouched; a scannable file with no entry or a differing timestamp has
its record entry set to the current timestamp and is pushed on the candidate
queue. -/
theorem C1_incremental_skip (provider_exts : List (List String)) (st : ScanThread)
    (entry : DirEntry) (ts : Nat)
    (hfile : entry.isDir = false)
    (hmt : entry.mtime = some ts)
    (hscannable : ∃ exts ∈ provider_exts,
        file_is_scannable_with_provider entry.path exts = true) :
    (assocGet st.scan_record entry.path.full = some ts →
        handle_dir_entry provider_exts st entry = st) ∧
    (assocGet st.scan_record entry.path.full ≠ some ts →
        (handle_dir_entry provider_exts st entry).scan_record
            = assocInsert st.scan_record entry.path.full ts ∧
        (handle_dir_entry provider_exts st entry).to_process
            = entry.path :: st.to_process) := by
  constructor
  · intro hget
    have hfs : file_is_scannable provider_exts st.scan_record entry.path entry.mtime
        = (false, st.scan_record) := by
      rw [hmt]
      exact file_is_scannable_unchanged provider_exts st.scan_record entry.path ts hget
    simp [handle_dir_entry, hfile, hfs]
  · intro hget
    have hfs : file_is_scannable provider_exts st.scan_record entry.path entry.mtime
        = (true, assocInsert st.scan_record entry.path.full ts) := by
      rw [hmt]
      simpa [file_is_scannable] using
        file_is_scannable_loop_changed st.scan_record entry.path ts provider_exts
          hscannable hget
    by_cases htot : (st.discovered_total + 1) % 20 = 0
    · simp [handle_dir_entry, hfile, hfs, htot]
    · simp [handle_dir_entry, hfile, hfs, htot]

/-- Closed instance of C1 at `sampleEntry`: skipped when recorded at timestamp 5,
enqueued with a fresh record entry when unrecorded. -/
theorem C1_incremental_skip_witness :
    handle_dir_entry sampleProviderTable stRecorded sampleEntry = stRecorded ∧
    (handle_dir_entry sampleProviderTable ScanThread.initial sampleEntry).scan_record
        = [(samplePath.full, 5)] ∧
    (handle_dir_entry sampleProviderTable ScanThread.initial sampleEntry).to_process
        = [samplePath] := by
  have h1 := C1_incremental_skip sampleProviderTable stRecorded sampleEntry 5 rfl rfl
    ⟨[("mp3")], by decide, by decide⟩
  have h2 := C1_incremental_skip sampleProviderTable ScanThread.initial sampleEntry 5 rfl rfl
    ⟨[("mp3")], by decide, by decide⟩
  exact ⟨h1.1 (by decide), (h2.2 (by decide)).1, (h2.2 (by decide)).2⟩

/-! ### C2 -/

/-- C2 counterexample: a pass over one candidate whose extraction fails
(`read_metadata_for_path` yields nothing).  Discovery already wrote the record
entry, the failing scan leaves it alone, and the pass-end persist writes it out —
so the record does contain an entry for the failed file's path, contradicting the
claim that it contains none. -/
theorem C2_counterexample :
    (scan_step ⟨fun _ => none⟩
        (scan_step ⟨fun _ => none⟩
          (handle_dir_entry sampleProviderTable
            { ScanThread.initial with scan_state := ScanState.discovering }
            sampleEntry))).persisted_writes = [[(samplePath.full, 5)]] ∧
    assocGet (scan_step ⟨fun _ => none⟩
        (scan_step ⟨fun _ => none⟩
          (handle_dir_entry sampleProviderTable
            { ScanThread.initial with scan_state := ScanState.discovering }
            sampleEntry))).scan_record samplePath.full = some 5 ∧
    ¬ assocGet (scan_step ⟨fun _ => none⟩
        (scan_step ⟨fun _ => none⟩
          (handle_dir_entry sampleProviderTable
            { ScanThread.initial with scan_state := ScanState.discovering }
            sampleEntry))).scan_record samplePath.full = none := by
  refine ⟨rfl, rfl, ?_⟩
  decide

/-- C2 amended: the scan record entry for a candidate is written during discovery
with the file's current modification timestamp; processing a candidate — failing or
not — never modifies the scan record, so after the pass the entry is still present
and the file is skipped (not retried) on the next pass while its timestamp is
unchanged. -/
theorem C2_failed_file_not_retried (env : ScanEnv) (st : ScanThread)
    (hne : st.to_process ≠ []) :
    (scan_step env st).scan_record = st.scan_record ∧
    (∀ (provider_exts : List (List String)) (path : FsPath) (ts : Nat),
      assocGet st.scan_record path.full = some ts →
      file_is_scannable provider_exts st.scan_record path (some ts)
        = (false, st.scan_record)) := by
  constructor
  · cases hq : st.to_process with
    | nil => exact absurd hq hne
    | cons path rest =>
      cases hm : env.read_metadata path with
      | none => simp [scan_step, hq, hm]
      | some info =>
        by_cases hs : (st.scanned + 1) % 5 = 0
        · simp [scan_step, hq, hm, hs]
        · simp [scan_step, hq, hm, hs]
  · intro provider_exts path ts hget
    exact file_is_scannable_unchanged provider_exts st.scan_record path ts hget

/-- Closed instance of the amended C2 at `stRecorded` with a failing extractor. -/
theorem C2_failed_file_not_retried_witness :
    (scan_step ⟨fun _ => none⟩
        { stRecorded with to_process := [samplePath] }).scan_record
      = [(samplePath.full, 5)] ∧
    file_is_scannable sampleProviderTable [(samplePath.full, 5)] samplePath (some 5)
      = (false, [(samplePath.full, 5)]) := by
  have h := C2_failed_file_not_retried ⟨fun _ => none⟩
    { stRecorded with to_process := [samplePath] } (by decide)
  exact ⟨h.1, h.2 sampleProviderTable samplePath 5 (by decide)⟩

/-! ### C3 -/

theorem findAlbumPath_append_self (l : List (Nat × Int × String)) (albumId : Nat)
    (discNum : Int) (folder : String)
    (h : findAlbumPath l albumId discNum = none) :
    findAlbumPath (l ++ [(albumId, discNum, folder)]) albumId discNum = some folder := by
  induction l with
  | nil => simp [findAlbumPath]
  | cons head tail ih =>
    obtain ⟨aid, disc, f⟩ := head
    simp only [findAlbumPath, List.cons_append] at h ⊢
    by_cases hk : aid = albumId ∧ disc = discNum
    · rw [if_pos hk] at h
      exact absurd h (by simp)
    · rw [if_neg hk] at h ⊢
      exact ih h

/-- C3: with a resolved album id, the disc number defaults to −1 when the tag is
absent; when no folder binding exists for (album, disc) the track's folder is
recorded as authoritative; when a binding exists and differs from the track's
folder, `insert_track` returns with the store untouched and no track row. -/
theorem C3_folder_binding (s : Store) (metadata : Metadata) (albumId : Nat)
    (path : FsPath) (length : Nat) :
    (metadata.disc_current = none → metadata.disc_current.getD (-1) = -1) ∧
    (get_album_path s albumId (metadata.disc_current.getD (-1)) = none →
      get_album_path (insert_track s metadata (some albumId) path length).1
          albumId (metadata.disc_current.getD (-1))
        = some path.parent) ∧
    (∀ folder, get_album_path s albumId (metadata.disc_current.getD (-1)) = some folder →
      folder ≠ path.parent →
      insert_track s metadata (some albumId) path length = (s, Except.ok ())) := by
  refine ⟨?_, ?_, ?_⟩
  · intro h
    rw [h]
    rfl
  · intro hnone
    have hframe := insert_track_row_frame (create_album_path s albumId path.parent
      (metadata.disc_current.getD (-1))) metadata albumId path length
    simp only [insert_track, hnone]
    unfold get_album_path
    rw [hframe.2.2]
    show findAlbumPath
        (s.albumPaths ++ [(albumId, metadata.disc_current.getD (-1), path.parent)])
        albumId (metadata.disc_current.getD (-1)) = some path.parent
    exact findAlbumPath_append_self s.albumPaths albumId
      (metadata.disc_current.getD (-1)) path.parent hnone
  · intro folder hsome hne
    simp [insert_track, hsome, hne]

/-- Closed instance of C3: binding recorded on first encounter (empty store), and a
conflicting binding leaves the store untouched. -/
theorem C3_folder_binding_witness :
    get_album_path (insert_track emptyStore emptyMetadata (some 0) samplePath 3).1
        0 (-1) = some samplePath.parent ∧
    insert_track storeBound emptyMetadata (some 0) samplePath 3
      = (storeBound, Except.ok ()) := by
  refine ⟨?_, ?_⟩
  · exact (C3_folder_binding emptyStore emptyMetadata 0 samplePath 3).2.1 (by decide)
  · exact (C3_folder_binding storeBound emptyMetadata 0 samplePath 3).2.2
      ("/elsewhere") (by decide) (by decide)

/-! ### C4 -/

theorem ite_either_le_flip {α : Type} (w h : Nat) (a b : α) :
    (if w ≤ 1024 ∨ h ≤ 1024 then a else b)
      = if 1024 < w ∧ 1024 < h then b else a := by
  rcases le_or_lt w 1024 with hw | hw
  · rw [if_pos (Or.inl hw), if_neg (by omega)]
  · rcases le_or_lt h 1024 with hh | hh
    · rw [if_pos (Or.inr hh), if_neg (by omega)]
    · rw [if_neg (by omega), if_pos ⟨hw, hh⟩]

/-- C4 counterexample: art decoding to 2000×500 — a dimension exceeding 1024 — is
stored as the original bytes, not re-encoded as the claim requires, because the
code keeps the original whenever *either* dimension is ≤ 1024. -/
theorem C4_counterexample :
    process_album_art (some ⟨[7], some ⟨2000, 500, 0⟩⟩)
      = Except.ok (some (FullArt.originalBytes [7]),
                   some (ThumbArt.bmp70 ⟨2000, 500, 0⟩)) ∧
    1024 < 2000 ∧
    FullArt.originalBytes [7]
      ≠ FullArt.jpegQuality70 (resize_lanczos_1024 ⟨2000, 500, 0⟩) := by
  refine ⟨rfl, by decide, by decide⟩

/-- C4 amended: at album creation with decoded art, the stored full-size art is the
Lanczos-downscaled JPEG-quality-70 re-encode only when *both* dimensions exceed
1024; if either dimension is ≤ 1024 the original undecoded bytes are stored. -/
theorem C4_full_size_art (s : Store) (metadata : Metadata) (artistId : Option Nat)
    (bytes : List Nat) (decoded : DecodedImg) (album : String)
    (halbum : metadata.album = some album)
    (hmiss : get_album_id s album (metadata.mbid_album.getD ("none")) = none) :
    ∃ s2 id row,
      insert_album s metadata artistId (some ⟨bytes, some decoded⟩)
        = Except.ok (s2, some id) ∧
      s2.albums = s.albums ++ [row] ∧
      row.fullArt = some (if 1024 < decoded.width ∧ 1024 < decoded.height
          then FullArt.jpegQuality70 (resize_lanczos_1024 decoded)
          else FullArt.originalBytes bytes) ∧
      row.thumb = some (ThumbArt.bmp70 decoded) := by
  have key : insert_album s metadata artistId (some ⟨bytes, some decoded⟩)
      = Except.ok
          ({ s with albums := s.albums ++
              [⟨s.albums.length, album, metadata.sort_album.getD album, artistId,
                some (if decoded.width ≤ 1024 ∨ decoded.height ≤ 1024
                  then FullArt.originalBytes bytes
                  else FullArt.jpegQuality70 (resize_lanczos_1024 decoded)),
                some (ThumbArt.bmp70 decoded), metadata.date, metadata.label,
                metadata.catalog, metadata.isrc, metadata.mbid_album.getD ("none")⟩] },
           some s.albums.length) := by
    simp [insert_album, halbum, hmiss, process_album_art, create_album]
  exact ⟨_, _, _, key, rfl,
    congrArg some (ite_either_le_flip decoded.width decoded.height
      (FullArt.originalBytes bytes)
      (FullArt.jpegQuality70 (resize_lanczos_1024 decoded))), rfl⟩

/-- Closed instance of the amended C4 at a 2000×500 decode on an empty store. -/
theorem C4_full_size_art_witness :
    ∃ s2 id row,
      insert_album emptyStore mdAlbumNoArtist none (some ⟨[7], some ⟨2000, 500, 0⟩⟩)
        = Except.ok (s2, some id) ∧
      s2.albums = emptyStore.albums ++ [row] ∧
      row.fullArt = some (if 1024 < (2000 : Nat) ∧ 1024 < (500 : Nat)
          then FullArt.jpegQuality70 (resize_lanczos_1024 ⟨2000, 500, 0⟩)
          else FullArt.originalBytes [7]) ∧
      row.thumb = some (ThumbArt.bmp70 ⟨2000, 500, 0⟩) := by
  exact C4_full_size_art emptyStore mdAlbumNoArtist none [7] ⟨2000, 500, 0⟩
    ("Album X") rfl (by decide)

/-! ### C5 -/

/-- C5: when the art bytes of a new album fail to decode, `insert_album` propagates
the decode error (`?` on `decode()`), so the album row is not created and the
file's whole pipeline fails — despite the adjacent comment "if there is a decode
error, just ignore it and pretend there is no image".  With no artist tags the
pipeline ends in exactly the decode error and an unchanged store. -/
theorem C5_decode_failure_aborts_file (s : Store) (metadata : Metadata)
    (artistId : Option Nat) (img : ArtBytes) (album : String)
    (halbum : metadata.album = some album)
    (hmiss : get_album_id s album (metadata.mbid_album.getD ("none")) = none)
    (hdecode : img.decodesTo = none) :
    insert_album s metadata artistId (some img)
      = Except.error ("image decode failed") ∧
    (metadata.album_artist = none → metadata.artist = none →
      ∀ (length : Nat) (path : FsPath),
        update_metadata s metadata length (some img) path
          = (s, some ("image decode failed"))) := by
  have hart : process_album_art (some img) = Except.error ("image decode failed") := by
    simp [process_album_art, hdecode]
  constructor
  · simp [insert_album, halbum, hmiss, hart]
  · intro h1 h2 length path
    have hartist : insert_artist s metadata = Except.ok (s, none) := by
      simp [insert_artist, h1, h2, optionOr]
    have halb : insert_album s metadata none (some img)
        = Except.error ("image decode failed") := by
      simp [insert_album, halbum, hmiss, hart]
    simp [update_metadata, hartist, halb]

/-- Closed instance of C5: undecodable art on a fresh album aborts the file with no
album row created. -/
theorem C5_decode_failure_witness :
    insert_album emptyStore mdAlbumNoArtist none (some ⟨[9], none⟩)
      = Except.error ("image decode failed") ∧
    update_metadata emptyStore mdAlbumNoArtist 3 (some ⟨[9], none⟩) samplePath
      = (emptyStore, some ("image decode failed")) := by
  have h := C5_decode_failure_aborts_file emptyStore mdAlbumNoArtist none
    ⟨[9], none⟩ ("Album X") rfl (by decide) rfl
  exact ⟨h.1, h.2 rfl rfl 3 samplePath⟩

/-! ### C6 -/

/-- C6: a scan record file that exists and opens but fails to deserialize leaves the
scanner with the empty in-memory record and the logged warning (the thread keeps
running — the load yields a state rather than exiting), and under the empty record
every scannable file is a candidate again: a full rescan. -/
theorem C6_corrupt_record_recovery :
    run_load_scan_record true true none = some ([], true) ∧
    (∀ (provider_exts : List (List String)) (path : FsPath) (ts : Nat),
      (∃ exts ∈ provider_exts, file_is_scannable_with_provider path exts = true) →
      file_is_scannable provider_exts [] path (some ts)
        = (true, [(path.full, ts)])) := by
  constructor
  · rfl
  · intro provider_exts path ts h
    have := file_is_scannable_loop_changed [] path ts provider_exts h (by simp [assocGet])
    simpa [file_is_scannable, assocInsert] using this

/-- Closed instance of C6 at `samplePath` with the one-provider table. -/
theorem C6_corrupt_record_recovery_witness :
    run_load_scan_record true true none = some ([], true) ∧
    file_is_scannable sampleProviderTable [] samplePath (some 5)
      = (true, [(samplePath.full, 5)]) := by
  have h := C6_corrupt_record_recovery
  exact ⟨h.1, h.2 sampleProviderTable samplePath 5 ⟨[("mp3")], by decide, by decide⟩⟩

/-! ### C7 -/

/-- C7 counterexample: `write_scan_record` truncates the record file in place
(`File::create` then `write_all`, no temporary file and no rename), so a crash
right after the truncating create leaves the file empty — neither the previous
snapshot nor the new data. -/
theorem C7_counterexample :
    write_scan_record_ops ("scan_record.json") ("new")
      = [FsOp.create ("scan_record.json"),
         FsOp.writeAll ("scan_record.json") ("new")] ∧
    assocGet (applyOps [(("scan_record.json"), ("old"))]
        [FsOp.create ("scan_record.json")]) ("scan_record.json") = some ("") ∧
    some ("") ≠ some ("old") ∧
    some ("") ≠ (some ("new") : Option String) := by
  refine ⟨rfl, rfl, by decide, by decide⟩

/-- C7 amended: the full mapping is serialized and written by truncating the record
file in place and rewriting it (not write-temp-then-rename, so a crash mid-write
can destroy the previous snapshot), and this persist runs exactly once per pass —
at the `scan` step that finds the work queue empty — never while a candidate is
processed. -/
theorem C7_persist_once_in_place (env : ScanEnv) (st : ScanThread) (fs : FsState)
    (p data : String) :
    (scan_step env st).persisted_writes
      = (if st.to_process = [] then st.persisted_writes ++ [st.scan_record]
         else st.persisted_writes) ∧
    assocGet (applyOps fs (write_scan_record_ops p data)) p = some data := by
  constructor
  · cases hq : st.to_process with
    | nil => simp [scan_step, hq]
    | cons path rest =>
      cases hm : env.read_metadata path with
      | none => simp [scan_step, hq, hm]
      | some info =>
        by_cases hs : (st.scanned + 1) % 5 = 0
        · simp [scan_step, hq, hm, hs]
        · simp [scan_step, hq, hm, hs]
  · show assocGet (assocInsert (assocInsert fs p ("")) p data) p = some data
    exact assocGet_insert_self (assocInsert fs p ("")) p data

/-! ### C8 -/

/-- C8 counterexample: a candidate whose metadata has neither album-artist nor
artist but does carry an album title is *not* aborted — `update_metadata` creates
an album row (with no artist reference) and a track row for it, and reports no
error. -/
theorem C8_counterexample :
    mdAlbumNoArtist.album_artist = none ∧
    mdAlbumNoArtist.artist = none ∧
    (update_metadata emptyStore mdAlbumNoArtist 3 none samplePath).1.artists = [] ∧
    (update_metadata emptyStore mdAlbumNoArtist 3 none samplePath).1.albums ≠ [] ∧
    (update_metadata emptyStore mdAlbumNoArtist 3 none samplePath).1.tracks ≠ [] ∧
    (update_metadata emptyStore mdAlbumNoArtist 3 none samplePath).2 = none := by
  refine ⟨rfl, rfl, rfl, ?_, ?_, rfl⟩ <;> decide

/-- C8 amended: with neither album-artist nor artist, no artist row is created (the
artist step yields no id) and processing of the file is *not* aborted: when the
metadata also lacks an album title nothing at all is stored for the file, but when
an album title is present an album row with no artist reference is still created
(and the file continues to track insertion). -/
theorem C8_no_artist_keeps_file (s : Store) (metadata : Metadata) (length : Nat)
    (image : Option ArtBytes) (path : FsPath)
    (h1 : metadata.album_artist = none) (h2 : metadata.artist = none) :
    insert_artist s metadata = Except.ok (s, none) ∧
    (update_metadata s metadata length image path).1.artists = s.artists ∧
    (metadata.album = none → update_metadata s metadata length image path = (s, none)) ∧
    (∀ album, metadata.album = some album →
      get_album_id s album (metadata.mbid_album.getD ("none")) = none →
      image = none →
      ∃ row, (update_metadata s metadata length image path).1.albums
          = s.albums ++ [row] ∧ row.artistId = none) := by
  have hartist : insert_artist s metadata = Except.ok (s, none) := by
    simp [insert_artist, h1, h2, optionOr]
  refine ⟨hartist, ?_, ?_, ?_⟩
  · cases halb : insert_album s metadata none image with
    | error e => simp [update_metadata, hartist, halb]
    | ok pair =>
      obtain ⟨s2, albumId⟩ := pair
      have hs2 := insert_album_ok_frame s metadata none image s2 albumId halb
      have htr := insert_track_frame s2 metadata albumId path length
      cases htrk : insert_track s2 metadata albumId path length with
      | mk s3 r =>
        have hs3 : s3.artists = s2.artists := by
          have := htr.1
          rw [htrk] at this
          exact this
        cases r with
        | ok u => simp [update_metadata, hartist, halb, htrk, hs3, hs2]
        | error e => simp [update_metadata, hartist, halb, htrk, hs3, hs2]
  · intro halbum
    have halb : insert_album s metadata none image = Except.ok (s, none) := by
      simp [insert_album, halbum]
    simp [update_metadata, hartist, halb, insert_track]
  · intro album halbum hmiss himg
    subst himg
    have halb : insert_album s metadata none none
        = Except.ok
            ({ s with albums := s.albums ++
                [⟨s.albums.length, album, metadata.sort_album.getD album, none,
                  none, none, metadata.date, metadata.label, metadata.catalog,
                  metadata.isrc, metadata.mbid_album.getD ("none")⟩] },
             some s.albums.length) := by
      simp [insert_album, halbum, hmiss, process_album_art, create_album]
    refine ⟨⟨s.albums.length, album, metadata.sort_album.getD album, none,
      none, none, metadata.date, metadata.label, metadata.catalog,
      metadata.isrc, metadata.mbid_album.getD ("none")⟩, ?_, rfl⟩
    have htr := insert_track_frame
      ({ s with albums := s.albums ++
          [⟨s.albums.length, album, metadata.sort_album.getD album, none,
            none, none, metadata.date, metadata.label, metadata.catalog,
            metadata.isrc, metadata.mbid_album.getD ("none")⟩] })
      metadata (some s.albums.length) path length
    cases htrk : insert_track
        ({ s with albums := s.albums ++
            [⟨s.albums.length, album, metadata.sort_album.getD album, none,
              none, none, metadata.date, metadata.label, metadata.catalog,
              metadata.isrc, metadata.mbid_album.getD ("none")⟩] })
        metadata (some s.albums.length) path length with
    | mk s3 r =>
      have hs3 := htr.2
      rw [htrk] at hs3
      cases r with
      | ok u =>
        simp only [update_metadata, hartist, halb, htrk]
        exact hs3
      | error e =>
        simp only [update_metadata, hartist, halb, htrk]
        exact hs3

/-- Closed instance of the amended C8: no artist row, album row without artist
reference, file not aborted. -/
theorem C8_no_artist_keeps_file_witness :
    insert_artist emptyStore mdAlbumNoArtist = Except.ok (emptyStore, none) ∧
    (update_metadata emptyStore mdAlbumNoArtist 3 none samplePath).1.artists = [] ∧
    (∃ row, (update_metadata emptyStore mdAlbumNoArtist 3 none samplePath).1.albums
        = emptyStore.albums ++ [row] ∧ row.artistId = none) := by
  have h := C8_no_artist_keeps_file emptyStore mdAlbumNoArtist 3 none samplePath rfl rfl
  exact ⟨h.1, h.2.1, h.2.2.2 ("Album X") rfl (by decide) rfl⟩

/-! ### C9 -/

/-- C9: `ScanThread::discover` calls `fs::read_dir(&path).unwrap()`, so a directory
that vanishes (or denies permission) between discovery scheduling and the read
panics the scanner thread — modelled as the step having no successor state — rather
than being swallowed with traversal continuing, as the claim (and `scan2.rs`)
describe. -/
theorem C9_vanished_directory_panics (read_dir : FsPath → Option (List DirEntry))
    (provider_exts : List (List String)) (st : ScanThread) (path : FsPath)
    (rest : List FsPath)
    (hq : st.discovered = path :: rest)
    (hv : st.visited.contains path = false)
    (hrd : read_dir path = none) :
    discover_step read_dir provider_exts st = none := by
  have hv2 : path ∉ st.visited := by simpa using hv
  simp [discover_step, hq, hv2, hrd]

/-- Closed instance of C9: the scanner state about to read a vanished `sampleDir`
steps to a panic. -/
theorem C9_vanished_directory_panics_witness :
    discover_step (fun _ => none) sampleProviderTable
      { ScanThread.initial with scan_state := ScanState.discovering
                                discovered := [sampleDir] } = none := by
  exact C9_vanished_directory_panics (fun _ => none) sampleProviderTable
    { ScanThread.initial with scan_state := ScanState.discovering
                              discovered := [sampleDir] }
    sampleDir [] rfl (by decide) rfl

/-! ### C10 -/

/-- C10: a `Scan` command received while idle resets the discovery queue to the
settings paths and zeroes both counters but leaves the visited set unchanged; only
`Stop` clears the visited set; and discovery pops an already-visited directory
without touching anything else — so directories visited in an earlier pass of the
process are skipped in all later passes. -/
theorem C10_visited_survives_passes (settings_paths : List FsPath) (st : ScanThread)
    (hidle : st.scan_state = ScanState.idle) :
    (read_command settings_paths st ScanCommand.scan).visited = st.visited ∧
    (read_command settings_paths st ScanCommand.scan).discovered = settings_paths ∧
    (read_command settings_paths st ScanCommand.scan).scanned = 0 ∧
    (read_command settings_paths st ScanCommand.scan).discovered_total = 0 ∧
    (∀ st2 : ScanThread, (read_command settings_paths st2 ScanCommand.stop).visited = []) ∧
    (∀ (read_dir : FsPath → Option (List DirEntry))
        (provider_exts : List (List String)) (st2 : ScanThread)
        (path : FsPath) (rest : List FsPath),
      st2.discovered = path :: rest → st2.visited.contains path = true →
      discover_step read_dir provider_exts st2
        = some { st2 with discovered := rest }) := by
  refine ⟨?_, ?_, ?_, ?_, ?_, ?_⟩
  · simp [read_command, hidle]
  · simp [read_command, hidle]
  · simp [read_command, hidle]
  · simp [read_command, hidle]
  · intro st2
    simp [read_command]
  · intro read_dir provider_exts st2 path rest hq hv
    have hv2 : path ∈ st2.visited := by simpa using hv
    simp [discover_step, hq, hv2]

/-- Closed instance of C10: `Scan` from idle keeps `visited`, and discovery skips
the already-visited `sampleDir`. -/
theorem C10_visited_survives_passes_witness :
    (read_command [sampleDir] ScanThread.initial ScanCommand.scan).visited = [] ∧
    (read_command [sampleDir] ScanThread.initial ScanCommand.scan).discovered
      = [sampleDir] ∧
    discover_step (fun _ => none) sampleProviderTable stVisited
      = some { stVisited with discovered := [] } := by
  have h := C10_visited_survives_passes [sampleDir] ScanThread.initial rfl
  exact ⟨h.1, h.2.1,
    h.2.2.2.2.2 (fun _ => none) sampleProviderTable stVisited sampleDir [] rfl (by decide)⟩

end Hummingbird
